import Mathlib

set_option linter.unusedVariables false

/-! Verification development for the FYP agentic-RAG backend request
pipeline.  The definitions below are shallow embeddings of the
JavaScript source: the CacheService (`src/services/cache.service.js`),
the QueueService job processor (`src/services/queue.service.js`), the
in-memory MockQueue (`src/config/queue.js`) and the PythonBridge
(`src/services/python/bridge.js`).  Fallible external operations
(Redis calls, JSON serialization, the Python worker) are passed in as
explicit `Except` valued oracles; stateful code is modelled by explicit
state passing and, for the bridge, a step function over event traces. -/

namespace FYP

/-- Characters matched by the JavaScript regular-expression class `\s`
and trimmed by `String.prototype.trim`: ASCII whitespace plus NBSP,
the line and paragraph separators and the BOM. -/
def jsWhitespace (c : Char) : Bool :=
  c == ' ' || c == '\t' || c == '\n' || c == '\r' ||
  c == Char.ofNat 0x0B || c == Char.ofNat 0x0C || c == Char.ofNat 0xA0 ||
  c == Char.ofNat 0x2028 || c == Char.ofNat 0x2029 || c == Char.ofNat 0xFEFF

/-- The character list of a JavaScript `s.trim()`: leading and trailing
whitespace removed. -/
def jsTrimList (l : List Char) : List Char :=
  ((l.dropWhile jsWhitespace).reverse.dropWhile jsWhitespace).reverse

/-- JavaScript `s.trim()`. -/
def jsTrim (s : String) : String := String.mk (jsTrimList s.data)

/-- Worker for `collapseWs`: the flag records whether the previous
character was whitespace (i.e. we are inside a run that has already
emitted its single replacement space). -/
def collapseWsAux : Bool → List Char → List Char
  | _, [] => []
  | prevWs, c :: rest =>
    if jsWhitespace c then
      if prevWs then collapseWsAux true rest
      else ' ' :: collapseWsAux true rest
    else c :: collapseWsAux false rest

/-- JavaScript `s.replace(/\s+/g, ' ')`: every maximal run of whitespace
characters is replaced by a single space. -/
def collapseWs (l : List Char) : List Char := collapseWsAux false l

/-- The normalization performed by `CacheService.generateKey`:
`query.toLowerCase().trim().replace(/\s+/g, ' ')` (lowercase each
character, then trim, then collapse whitespace runs to single
spaces). -/
def normalizeQuery (q : String) : String :=
  String.mk (collapseWs (jsTrimList (q.data.map Char.toLower)))

/-- `CacheService.generateKey`.  The MD5 content hash comes from the
node `crypto` library (outside this repository) and is abstracted as a
function parameter `md5hex`; the key is `chat:` followed by the hex
digest of the normalized query.  Note the signature takes only the
query: no caller identity enters the key. -/
def generateKey (md5hex : String → String) (query : String) : String :=
  "chat:" ++ md5hex (normalizeQuery query)

/-! ### CacheService state (cache.service.js)

The JavaScript `Map` used for the in-process fallback cache is modelled
as an insertion-ordered association list: `Map.prototype.set` updates an
existing key in place (keeping its position) or appends a new binding,
`Map.prototype.delete` removes the binding, and iteration order
(`keys().next().value`) is insertion order, so the first list element is
the oldest entry. -/

/-- JavaScript `Map.prototype.has`. -/
def mapHas {α : Type} (m : List (String × α)) (k : String) : Bool :=
  m.any (fun p => p.1 == k)

/-- JavaScript `Map.prototype.get` (`none` when absent). -/
def mapFind {α : Type} (m : List (String × α)) (k : String) : Option α :=
  (m.find? (fun p => p.1 == k)).map (fun p => p.2)

/-- JavaScript `Map.prototype.set`: update in place or append. -/
def mapSet {α : Type} (m : List (String × α)) (k : String) (v : α) :
    List (String × α) :=
  if mapHas m k then m.map (fun p => if p.1 == k then (k, v) else p)
  else m ++ [(k, v)]

/-- JavaScript `Map.prototype.delete`. -/
def mapDelete {α : Type} (m : List (String × α)) (k : String) :
    List (String × α) :=
  m.filter (fun p => !(p.1 == k))

/-- The `stats` counters of CacheService. -/
structure CacheStats where
  hits : Nat
  misses : Nat
  sets : Nat
  deletes : Nat
  errors : Nat
deriving DecidableEq, Repr

/-- One entry of the in-memory fallback cache: the raw value plus its
absolute expiry time in milliseconds. -/
structure MemEntry (V : Type) where
  value : V
  expiresAt : Nat
deriving DecidableEq, Repr

/-- The mutable state of CacheService.  `redisAvailable` models whether
`this.redisClient` is non-null; the Redis store itself is modelled as an
association list of key to (serialized value, ttl). -/
structure CacheState (V : Type) where
  enabled : Bool
  redisAvailable : Bool
  redis : List (String × (String × Nat))
  memory : List (String × MemEntry V)
  ttl : Nat
  memoryCacheMaxSize : Nat
  stats : CacheStats
deriving DecidableEq, Repr

/-- Increment the error counter (the `catch` blocks of get/set). -/
def bumpErrors {V : Type} (st : CacheState V) : CacheState V :=
  { st with stats := { st.stats with errors := st.stats.errors + 1 } }

/-- Increment the hit counter. -/
def bumpHits {V : Type} (st : CacheState V) : CacheState V :=
  { st with stats := { st.stats with hits := st.stats.hits + 1 } }

/-- Increment the miss counter. -/
def bumpMisses {V : Type} (st : CacheState V) : CacheState V :=
  { st with stats := { st.stats with misses := st.stats.misses + 1 } }

/-- Increment the set counter. -/
def bumpSets {V : Type} (st : CacheState V) : CacheState V :=
  { st with stats := { st.stats with sets := st.stats.sets + 1 } }

/-- The memory-fallback branch of `CacheService.get`: a present,
unexpired entry is a hit; an expired entry is deleted and the lookup
falls through to a miss; an absent key is a miss. -/
def memoryGet {V : Type} (st : CacheState V) (key : String) (now : Nat) :
    Option V × CacheState V :=
  match mapFind st.memory key with
  | some e =>
    if e.expiresAt > now then (some e.value, bumpHits st)
    else (none, bumpMisses { st with memory := mapDelete st.memory key })
  | none => (none, bumpMisses st)

/-- `CacheService.get`.  `redisRead` is the outcome of
`redisClient.get(key)` (consulted only when the client is non-null) and
`parse` the outcome of `JSON.parse` on the string it returns; an
exception from either is caught and the call returns `null` (here
`none`). -/
def cacheGet {V : Type} (st : CacheState V) (key : String) (now : Nat)
    (redisRead : Except String (Option String))
    (parse : String → Except String V) : Option V × CacheState V :=
  if st.enabled = false then (none, st)
  else if st.redisAvailable then
    match redisRead with
    | Except.error _ => (none, bumpErrors st)
    | Except.ok (some s) =>
      if s.isEmpty then memoryGet st key now
      else
        match parse s with
        | Except.error _ => (none, bumpErrors st)
        | Except.ok v => (some v, bumpHits st)
    | Except.ok none => memoryGet st key now
  else memoryGet st key now

/-- The effective TTL of `CacheService.set`: `customTtl || this.ttl`
(note JavaScript `||`: a custom TTL of `0` is falsy and falls back to
the default). -/
def effTtl {V : Type} (st : CacheState V) (customTtl : Option Nat) : Nat :=
  match customTtl with
  | some t => if t = 0 then st.ttl else t
  | none => st.ttl

/-- The LRU-style eviction of `CacheService.set`: when the memory cache
holds at least `memoryCacheMaxSize` entries, the first (oldest) key is
deleted before inserting. -/
def evictIfFull {V : Type} (mem : List (String × MemEntry V)) (maxSize : Nat) :
    List (String × MemEntry V) :=
  if mem.length ≥ maxSize then
    match mem.head? with
    | some p => mapDelete mem p.1
    | none => mem
  else mem

/-- `CacheService.set`.  `serialize` is the outcome of
`JSON.stringify(value)` and `redisWrite` the outcome of
`redisClient.setex` (attempted only when the client is non-null); an
exception from either is caught and the call returns `false`.  When the
Redis client is non-null the function returns directly after the Redis
write: the in-memory fallback branch runs only when Redis is
unavailable. -/
def cacheSet {V : Type} (st : CacheState V) (key : String) (value : V)
    (customTtl : Option Nat) (now : Nat)
    (serialize : Except String String) (redisWrite : Except String Unit) :
    Bool × CacheState V :=
  if st.enabled = false then (false, st)
  else
    match serialize with
    | Except.error _ => (false, bumpErrors st)
    | Except.ok serialized =>
      if st.redisAvailable then
        match redisWrite with
        | Except.error _ => (false, bumpErrors st)
        | Except.ok _ =>
          let redis1 := mapSet st.redis key (serialized, effTtl st customTtl)
          (true, bumpSets { st with redis := redis1 })
      else
        let entry : MemEntry V := ⟨value, now + effTtl st customTtl * 1000⟩
        let mem1 := mapSet (evictIfFull st.memory st.memoryCacheMaxSize) key entry
        (true, bumpSets { st with memory := mem1 })

/-! ### QueueService._processJob (queue.service.js)

The job processor is modelled as a pure function of the job data, a
cache-lookup oracle and the outcome of the bridge call.  Alongside the
job result it returns ghost logs of the cache keys read
(`cacheService.get` calls) and the key/value pairs written
(`cacheService.set` calls). -/

/-- One `{role, content}` message of the conversation history. -/
structure ChatMsg where
  role : String
  content : String
deriving DecidableEq, Repr

/-- The data of a queued chat job. -/
structure JobData where
  query : String
  userId : String
  sessionId : String
  conversationHistory : List ChatMsg
deriving DecidableEq, Repr

/-- A successful bridge result (`answer` plus retrieved contexts). -/
structure PyResult where
  answer : String
  contexts : List String
deriving DecidableEq, Repr

/-- The result returned by `_processJob`. -/
structure JobOutcome where
  answer : String
  contexts : List String
  cached : Bool
deriving DecidableEq, Repr

/-- `QueueService._processJob`: compute the cache key from the query,
read the cache only when the conversation history is empty, return a
cache hit directly, otherwise invoke the bridge and, on success, store
the result in the cache (the source performs this store
unconditionally, with no check of the conversation history).  The
second component lists the cache keys read, the third the cache writes
performed.  The source's `job.progress` reporting, timing and logging
calls have no effect on the result or the cache and are omitted. -/
def processJob (md5hex : String → String) (jd : JobData)
    (cacheLookup : String → Option PyResult)
    (bridge : Except String PyResult) :
    Except String JobOutcome × List String × List (String × PyResult) :=
  let key := generateKey md5hex jd.query
  let reads := if jd.conversationHistory.isEmpty then [key] else []
  let cached := if jd.conversationHistory.isEmpty then cacheLookup key else none
  match cached with
  | some c => (Except.ok ⟨c.answer, c.contexts, true⟩, reads, [])
  | none =>
    match bridge with
    | Except.ok r =>
      (Except.ok ⟨r.answer, r.contexts, false⟩, reads, [(key, ⟨r.answer, r.contexts⟩)])
    | Except.error e => (Except.error e, reads, [])

/-! ### MockQueue (config/queue.js)

The in-memory queue used when Redis is disabled.  Its `add` method
creates the job record, stores it, and — when a processor has been
registered via `process` — immediately `await`s the processor on the
job before returning, recording the result or failure on the job. -/

/-- The observable state of a mock job (`getState()`). -/
inductive MockJobState where
  | waiting
  | active
  | completed
  | failed
deriving DecidableEq, Repr

/-- A MockQueue job record. -/
structure MockJob where
  id : String
  returnvalue : Option String
  failedReason : Option String
  state : MockJobState
deriving DecidableEq, Repr

/-- The state of a MockQueue: the job map and the id counter. -/
structure MockQueueState where
  jobs : List (String × MockJob)
  jobCounter : Nat
deriving DecidableEq, Repr

/-- `MockQueue.add`.  `processor` is the function registered by
`MockQueue.process` (if any); job data is abstracted as a string and the
processor returns either a result or an error message.  The returned
pair is the updated queue state and the job object `add` returns to its
caller.  When a processor is registered, the processor is run to
completion inside `add`: the returned job already carries its terminal
state.  Note the id counter is incremented only when no custom job id is
supplied (JavaScript short-circuit in
`options.jobId || job-${++this.jobCounter}`). -/
def mockAdd (st : MockQueueState)
    (processor : Option (String → Except String String))
    (data : String) (optJobId : Option String) : MockQueueState × MockJob :=
  let idCounter : String × Nat :=
    match optJobId with
    | some j => (j, st.jobCounter)
    | none => ("job-" ++ toString (st.jobCounter + 1), st.jobCounter + 1)
  let jobId := idCounter.1
  let base : MockJob := ⟨jobId, none, none, MockJobState.waiting⟩
  let jobs1 := mapSet st.jobs jobId base
  match processor with
  | none => (⟨jobs1, idCounter.2⟩, base)
  | some p =>
    match p data with
    | Except.ok r =>
      let fin : MockJob := ⟨jobId, some r, none, MockJobState.completed⟩
      (⟨mapSet jobs1 jobId fin, idCounter.2⟩, fin)
    | Except.error e =>
      let fin : MockJob := ⟨jobId, none, some e, MockJobState.failed⟩
      (⟨mapSet jobs1 jobId fin, idCounter.2⟩, fin)

/-! ### PythonBridge.executeQuery: validation and retry loop (bridge.js)

`executeQuery` validates its query, then runs a `while (attempt <=
this.maxRetries)` loop: each iteration increments `attempt`, invokes the
worker (`_executePython`, modelled by the `outcome` oracle indexed by
the attempt number), returns on success, and on failure sleeps with
exponential backoff when further attempts remain.  When the loop exits,
a terminal `PythonExecutionError` is thrown. -/

/-- The backoff of attempt `attempt`:
`Math.min(1000 * Math.pow(2, attempt - 1), 5000)`. -/
def backoff (attempt : Nat) : Nat := min (1000 * 2 ^ (attempt - 1)) 5000

/-- The terminal error message:
`Python execution failed after N attempts: lastError.message`. -/
def pyExecFailMsg (attempts : Nat) (lastErr : Option String) : String :=
  "Python execution failed after " ++ toString attempts ++ " attempts: " ++
    (match lastErr with | some e => e | none => "")

/-- The outcome of the retry loop: the number of worker invocation
attempts made, the list of backoff sleeps performed (in ms), and the
final result. -/
structure RetryOut where
  attempts : Nat
  sleeps : List Nat
  result : Except String String
deriving Repr

/-- The retry loop of `executeQuery`, with an explicit gas parameter for
structural recursion.  Called with `gas = maxRetries + 1 - attempt` the
gas never runs out before the loop condition `attempt ≤ maxRetries`
turns false, and the `gas = 0` clause coincides with the loop-exit
clause, so the definition agrees with the source loop. -/
def retryLoop (maxRetries : Nat) (outcome : Nat → Except String String) :
    Nat → Nat → Option String → List Nat → RetryOut
  | 0, attempt, lastErr, sleeps =>
    ⟨attempt, sleeps, Except.error (pyExecFailMsg attempt lastErr)⟩
  | gas + 1, attempt, lastErr, sleeps =>
    if attempt ≤ maxRetries then
      match outcome (attempt + 1) with
      | Except.ok v => ⟨attempt + 1, sleeps, Except.ok v⟩
      | Except.error err =>
        if attempt + 1 ≤ maxRetries then
          retryLoop maxRetries outcome gas (attempt + 1) (some err)
            (sleeps ++ [backoff (attempt + 1)])
        else retryLoop maxRetries outcome gas (attempt + 1) (some err) sleeps
    else ⟨attempt, sleeps, Except.error (pyExecFailMsg attempt lastErr)⟩

/-- The query argument of `executeQuery`: a JavaScript string or a
non-string value (whose validation the source handles by `typeof query
!== 'string'`). -/
inductive QueryInput where
  | str (s : String)
  | nonString
deriving DecidableEq, Repr

/-- The errors `executeQuery` can throw. -/
inductive BridgeError where
  | validation (msg : String)
  | pythonExecution (msg : String)
deriving DecidableEq, Repr

/-- The observable outcome of `executeQuery`: worker invocation attempts
made, backoff sleeps performed, and result or thrown error. -/
structure ExecOut where
  attempts : Nat
  sleeps : List Nat
  result : Except BridgeError String
deriving Repr

/-- `PythonBridge.executeQuery`: validation (`!query || typeof query !==
'string' || !query.trim()`, then `query.length > 2000`) followed by the
retry loop.  The worker is modelled by the `outcome` oracle, consulted
once per attempt; the statistics updates, elapsed-time fields and
logging of the source do not affect the control flow and are
omitted. -/
def executeQuery (maxRetries : Nat) (outcome : Nat → Except String String)
    (q : QueryInput) : ExecOut :=
  match q with
  | QueryInput.nonString =>
    ⟨0, [], Except.error (BridgeError.validation "Query must be a non-empty string")⟩
  | QueryInput.str s =>
    if s.isEmpty || (jsTrim s).isEmpty then
      ⟨0, [], Except.error (BridgeError.validation "Query must be a non-empty string")⟩
    else if 2000 < s.length then
      ⟨0, [], Except.error
        (BridgeError.validation "Query exceeds maximum length of 2000 characters")⟩
    else
      match retryLoop maxRetries outcome (maxRetries + 1) 0 none [] with
      | ⟨a, sl, Except.ok v⟩ => ⟨a, sl, Except.ok v⟩
      | ⟨a, sl, Except.error m⟩ =>
        ⟨a, sl, Except.error (BridgeError.pythonExecution m)⟩

/-- The disjunction of the validation checks of `executeQuery`: the
query is rejected when it is not a string, empty, whitespace-only, or
longer than 2000 characters. -/
def queryInvalid : QueryInput → Bool
  | QueryInput.nonString => true
  | QueryInput.str s =>
    s.isEmpty || (jsTrim s).isEmpty || decide (2000 < s.length)

/-! ### PythonBridge queue/process state machine (bridge.js)

The bridge's mutable state (`shell`, `isReady`, `isProcessing`,
`requestQueue`, `currentRequest`) together with the environment of
spawned worker processes is modelled as a state machine driven by
events: a new `executeQuery` request entering `_executePython`, a
message line emitted by a (current or replaced) worker process, a
per-request timeout firing, a process `close`/`error` event, and the
delayed `_initShell` restart.  Worker processes are identified by
generation numbers.  Ghost fields record arrival order, pop order,
dispatch order (with the generation each request was written to) and
the settlement (resolve/reject) of each request's promise. -/

/-- How a request's promise was settled.  `resolved fromGen` records
which worker generation's output line resolved it. -/
inductive Settle where
  | resolved (fromGen : Nat)
  | rejectedPy
  | rejectedTimeout
  | rejectedCrash
  | rejectedSend
deriving DecidableEq, Repr

/-- A parsed message line from a worker process: `success` is the
`data.success` flag and `ready` whether `data.message === 'Ready'`. -/
structure WorkerMsg where
  success : Bool
  ready : Bool
deriving DecidableEq, Repr

/-- The bridge state.  `shell` is the generation of the current
`PythonShell` (none after `_handleProcessDeath` nulls it),
`pendingRestarts` counts scheduled `setTimeout(() => this._initShell(),
1000)` callbacks, `spawned` lists every generation ever spawned and
`killed` every generation on which `shell.kill()` was invoked.
`arrived`, `popped`, `dispatched` and `completions` are ghost logs:
arrival order in `requestQueue`, pop order out of it, successful
`shell.send` order (with the target generation), and promise
settlements. -/
structure BState where
  shell : Option Nat
  nextGen : Nat
  spawned : List Nat
  killed : List Nat
  pendingRestarts : Nat
  isReady : Bool
  isProcessing : Bool
  requestQueue : List Nat
  currentRequest : Option Nat
  nextId : Nat
  arrived : List Nat
  popped : List Nat
  dispatched : List (Nat × Nat)
  completions : List (Nat × Settle)
deriving DecidableEq, Repr

/-- The ids whose promise has been settled. -/
def settledIds (st : BState) : List Nat := st.completions.map Prod.fst

/-- Record a settlement in the completions log: a promise settles at
most once, so a second resolve/reject of the same request is a no-op,
as in JavaScript. -/
def settleC (cs : List (Nat × Settle)) (r : Nat) (o : Settle) :
    List (Nat × Settle) :=
  if cs.any (fun c => c.1 == r) then cs else cs ++ [(r, o)]

/-- Settle request `r`'s promise with outcome `o`. -/
def settle (st : BState) (r : Nat) (o : Settle) : BState :=
  { st with completions := settleC st.completions r o }

/-- `PythonBridge._initShell`: kill the previous shell if the reference
is still set, then spawn a fresh process (next generation) and clear
the ready flag.  The message/close handlers the source attaches here
are modelled by the event steps below, which accept events from every
spawned generation because the handlers of replaced shells remain
attached. -/
def initShell (st : BState) : BState :=
  let killed1 := match st.shell with
    | some g => st.killed ++ [g]
    | none => st.killed
  { st with
    killed := killed1
    shell := some st.nextGen
    spawned := st.spawned ++ [st.nextGen]
    nextGen := st.nextGen + 1
    isReady := false }

/-- `PythonBridge._handleProcessDeath`: clear the ready/processing
flags, null the shell reference (without killing the process), reject
the current request if any, and schedule a restart. -/
def handleProcessDeath (st : BState) : BState :=
  match st.currentRequest with
  | some r =>
    { settle
        { st with
          isReady := false
          isProcessing := false
          shell := (none : Option Nat) }
        r Settle.rejectedCrash with
      currentRequest := (none : Option Nat)
      pendingRestarts := st.pendingRestarts + 1 }
  | none =>
    { st with
      isReady := false
      isProcessing := false
      shell := (none : Option Nat)
      pendingRestarts := st.pendingRestarts + 1 }

/-- `PythonBridge._processQueue`, with gas for structural recursion
(`gas` is the queue length at entry; each recursive call pops one
request, so the gas never runs out).  When the bridge is ready, idle
and the queue is non-empty, the head request is popped and becomes the
current request; `shell.send` succeeds when a shell reference exists
(recording the dispatch), and throws when `this.shell` is null, in
which case the catch block rejects the popped request, clears the slot
and recurses. -/
def processQueueAux (gas : Nat) (st : BState) : BState :=
  match gas with
  | 0 => st
  | gas + 1 =>
    match st.requestQueue with
    | [] => st
    | r :: rest =>
      if st.isReady = true ∧ st.isProcessing = false then
        match st.shell with
        | some g =>
          { st with
            requestQueue := rest
            popped := st.popped ++ [r]
            currentRequest := some r
            isProcessing := true
            dispatched := st.dispatched ++ [(r, g)] }
        | none =>
          processQueueAux gas
            (settle
              { st with
                requestQueue := rest
                popped := st.popped ++ [r]
                currentRequest := (none : Option Nat)
                isProcessing := false }
              r Settle.rejectedSend)
      else st

/-- `PythonBridge._processQueue`. -/
def processQueue (st : BState) : BState :=
  processQueueAux st.requestQueue.length st

/-- The `message` handler attached by `_initShell`.  It is attached per
shell but closes over the bridge (`this`), and the source never detaches
it, so it runs for output of replaced generations too; the handler
itself never checks which generation emitted the line.  A first
`{success: true, message: 'Ready'}` line marks the bridge ready;
otherwise, if a request is in flight it is resolved or rejected by this
line and the queue is pumped. -/
def onMessage (st : BState) (gen : Nat) (m : WorkerMsg) : BState :=
  if st.isReady = false ∧ m.success = true ∧ m.ready = true then
    processQueue { st with isReady := true }
  else
    match st.currentRequest with
    | some r =>
      let o := if m.success then Settle.resolved gen else Settle.rejectedPy
      processQueue
        (settle
          { st with
            currentRequest := (none : Option Nat)
            isProcessing := false }
          r o)
    | none => st

/-- The per-request timeout callback set in `_processQueue`: if the
request whose timer fired is still the current request, reject it with
the timeout error and run `_handleProcessDeath` (whose second reject of
the same promise is a no-op). -/
def onTimeout (st : BState) (rid : Nat) : BState :=
  if st.currentRequest = some rid then
    handleProcessDeath (settle st rid Settle.rejectedTimeout)
  else st

/-- `PythonBridge._executePython`: push the new request (fresh id) onto
the queue and pump it. -/
def enqueueRequest (st : BState) : BState :=
  processQueue
    { st with
      nextId := st.nextId + 1
      arrived := st.arrived ++ [st.nextId]
      requestQueue := st.requestQueue ++ [st.nextId] }

/-- Events driving the bridge state machine. -/
inductive BEvent where
  | enqueue
  | message (gen : Nat) (m : WorkerMsg)
  | timeoutFire (rid : Nat)
  | procClosed (gen : Nat)
  | restartFire
deriving DecidableEq, Repr

/-- One event step.  `message` and `procClosed` events are accepted from
every spawned generation (the handlers of replaced shells remain
attached); `restartFire` runs a scheduled `_initShell` callback. -/
def stepEv (st : BState) : BEvent → BState
  | BEvent.enqueue => enqueueRequest st
  | BEvent.message g m => if g ∈ st.spawned then onMessage st g m else st
  | BEvent.timeoutFire rid => onTimeout st rid
  | BEvent.procClosed g => if g ∈ st.spawned then handleProcessDeath st else st
  | BEvent.restartFire =>
    if st.pendingRestarts > 0 then
      initShell { st with pendingRestarts := st.pendingRestarts - 1 }
    else st

/-- The constructor state: all fields empty, followed by the
constructor's `_initShell()` call spawning generation 1. -/
def initState : BState :=
  initShell
    { shell := none, nextGen := 1, spawned := [], killed := [],
      pendingRestarts := 0, isReady := false, isProcessing := false,
      requestQueue := [], currentRequest := none, nextId := 0,
      arrived := [], popped := [], dispatched := [], completions := [] }

/-- Run a trace of events from a given state. -/
def runFrom (st : BState) (es : List BEvent) : BState := es.foldl stepEv st

/-- Run a trace of events from the freshly constructed bridge. -/
def run (es : List BEvent) : BState := runFrom initState es

/-- The set of requests that have been dispatched to a worker and whose
promise is not yet settled: the requests in flight from the bridge's
point of view. -/
def inFlight (st : BState) : List Nat :=
  (st.dispatched.map Prod.fst).filter (fun r => !(st.completions.any (fun c => c.1 == r)))

/-- The reachability invariant of the bridge state machine. -/
structure Inv (st : BState) : Prop where
  procSlot : st.isProcessing = st.currentRequest.isSome
  arrSplit : st.arrived = st.popped ++ st.requestQueue
  dispSub : (st.dispatched.map Prod.fst).Sublist st.popped
  arrNodup : st.arrived.Nodup
  arrLt : ∀ r ∈ st.arrived, r < st.nextId
  settledPopped : ∀ r ∈ settledIds st, r ∈ st.popped
  queueUnsettled : ∀ r ∈ st.requestQueue, r ∉ settledIds st
  curDispatched : ∀ r, st.currentRequest = some r → r ∈ st.dispatched.map Prod.fst
  curUnsettled : ∀ r, st.currentRequest = some r → r ∉ settledIds st
  dispSettled : ∀ r ∈ st.dispatched.map Prod.fst,
    st.currentRequest = some r ∨ r ∈ settledIds st

/-! ## Helper lemmas about `settle` and `settledIds` -/

theorem settle_requestQueue (st : BState) (r : Nat) (o : Settle) :
    (settle st r o).requestQueue = st.requestQueue := rfl

theorem settle_popped (st : BState) (r : Nat) (o : Settle) :
    (settle st r o).popped = st.popped := rfl

theorem settle_dispatched (st : BState) (r : Nat) (o : Settle) :
    (settle st r o).dispatched = st.dispatched := rfl

theorem settle_arrived (st : BState) (r : Nat) (o : Settle) :
    (settle st r o).arrived = st.arrived := rfl

theorem settle_nextId (st : BState) (r : Nat) (o : Settle) :
    (settle st r o).nextId = st.nextId := rfl

theorem settle_currentRequest (st : BState) (r : Nat) (o : Settle) :
    (settle st r o).currentRequest = st.currentRequest := rfl

theorem settle_isProcessing (st : BState) (r : Nat) (o : Settle) :
    (settle st r o).isProcessing = st.isProcessing := rfl

theorem mem_settleC (cs : List (Nat × Settle)) (r : Nat) (o : Settle) (x : Nat) :
    x ∈ (settleC cs r o).map Prod.fst ↔ x ∈ cs.map Prod.fst ∨ x = r := by
  unfold settleC
  split
  · rename_i h
    have h2 : r ∈ cs.map Prod.fst := by
      simp only [List.any_eq_true, beq_iff_eq] at h
      simp only [List.mem_map]
      obtain ⟨c, hc, hcr⟩ := h
      exact ⟨c, hc, hcr⟩
    constructor
    · exact Or.inl
    · rintro (hx | rfl)
      · exact hx
      · exact h2
  · simp

theorem mem_settledIds_settle (st : BState) (r : Nat) (o : Settle) (x : Nat) :
    x ∈ settledIds (settle st r o) ↔ x ∈ settledIds st ∨ x = r :=
  mem_settleC st.completions r o x

/-! ## Preservation of the bridge invariant -/

/-- Core preservation lemma: a state obtained from an invariant state by
settling the current request, clearing the slot, and arbitrarily
changing the process-management fields, satisfies the invariant. -/
theorem inv_afterSettleClear (st : BState) (r : Nat) (h : Inv st)
    (hc : st.currentRequest = some r) (st2 : BState)
    (hq : st2.requestQueue = st.requestQueue) (hp : st2.popped = st.popped)
    (hd : st2.dispatched = st.dispatched) (ha : st2.arrived = st.arrived)
    (hn : st2.nextId = st.nextId)
    (hcc : st2.currentRequest = none) (hip : st2.isProcessing = false)
    (hS : ∀ x, x ∈ settledIds st2 ↔ x ∈ settledIds st ∨ x = r) :
    Inv st2 := by
  have hrPop : r ∈ st.popped := h.dispSub.subset (h.curDispatched r hc)
  have hdisj : ∀ x ∈ st.popped, x ∉ st.requestQueue := by
    have hnd : (st.popped ++ st.requestQueue).Nodup := h.arrSplit ▸ h.arrNodup
    exact fun x hx hx2 => (List.nodup_append.mp hnd).2.2 hx hx2
  constructor
  · rw [hip, hcc]; rfl
  · rw [ha, hp, hq]; exact h.arrSplit
  · rw [hd, hp]; exact h.dispSub
  · rw [ha]; exact h.arrNodup
  · rw [ha, hn]; exact h.arrLt
  · intro x hx
    rw [hp]
    rcases (hS x).mp hx with hx2 | rfl
    · exact h.settledPopped x hx2
    · exact hrPop
  · intro x hx
    rw [hq] at hx
    intro hxS
    rcases (hS x).mp hxS with hx2 | rfl
    · exact h.queueUnsettled x hx hx2
    · exact hdisj x hrPop hx
  · intro x hx; rw [hcc] at hx; cases hx
  · intro x hx; rw [hcc] at hx; cases hx
  · intro x hx
    rw [hd] at hx
    rcases h.dispSettled x hx with hx2 | hx2
    · rw [hc] at hx2
      injection hx2 with hx2
      subst hx2
      exact Or.inr ((hS r).mpr (Or.inr rfl))
    · exact Or.inr ((hS x).mpr (Or.inl hx2))

/-- Invariant preservation through `_processQueue`. -/
theorem inv_processQueueAux :
    ∀ (gas : Nat) (st : BState), Inv st → Inv (processQueueAux gas st)
  | 0, st, h => h
  | gas + 1, st, h => by
    unfold processQueueAux
    split
    · exact h
    · rename_i r rest hq
      split
      · rename_i hg
        have hcur : st.currentRequest = none := by
          have hps := h.procSlot
          rw [hg.2] at hps
          cases hcu : st.currentRequest with
          | none => rfl
          | some x => rw [hcu] at hps; cases hps
        have hrQ : r ∈ st.requestQueue := by rw [hq]; exact List.mem_cons_self r rest
        have hnd : (st.popped ++ st.requestQueue).Nodup := h.arrSplit ▸ h.arrNodup
        have hdisj : ∀ x ∈ st.popped, x ∉ st.requestQueue :=
          fun x hx hx2 => (List.nodup_append.mp hnd).2.2 hx hx2
        have hqnd : st.requestQueue.Nodup := (List.nodup_append.mp hnd).2.1
        have hrRest : r ∉ rest := by
          have : st.requestQueue.Nodup := hqnd
          rw [hq] at this
          exact (List.nodup_cons.mp this).1
        have harr2 : st.arrived = (st.popped ++ [r]) ++ rest := by
          rw [h.arrSplit, hq, List.append_assoc]
          rfl
        split
        · rename_i g hs
          refine ⟨rfl, harr2, ?_, h.arrNodup, h.arrLt, ?_, ?_, ?_, ?_, ?_⟩
          · show (List.map Prod.fst (st.dispatched ++ [(r, g)])).Sublist (st.popped ++ [r])
            rw [List.map_append]
            exact List.Sublist.append h.dispSub (List.Sublist.refl _)
          · intro x hx
            exact List.mem_append_left _ (h.settledPopped x hx)
          · intro x hx
            have hx2 : x ∈ st.requestQueue := by
              rw [hq]; exact List.mem_cons_of_mem r hx
            exact h.queueUnsettled x hx2
          · intro x hx
            replace hx : some r = some x := hx
            injection hx with hx
            subst hx
            show r ∈ List.map Prod.fst (st.dispatched ++ [(r, g)])
            rw [List.map_append]
            exact List.mem_append_right _ (by simp)
          · intro x hx
            replace hx : some r = some x := hx
            injection hx with hx
            subst hx
            exact h.queueUnsettled r hrQ
          · intro x hx
            replace hx : x ∈ List.map Prod.fst (st.dispatched ++ [(r, g)]) := hx
            rw [List.map_append] at hx
            rcases List.mem_append.mp hx with hx | hx
            · rcases h.dispSettled x hx with hx2 | hx2
              · rw [hcur] at hx2; cases hx2
              · exact Or.inr hx2
            · simp only [List.map_cons, List.map_nil, List.mem_singleton] at hx
              subst hx
              exact Or.inl rfl
        · rename_i hs
          apply inv_processQueueAux gas
          set st1 : BState :=
            { st with
              requestQueue := rest
              popped := st.popped ++ [r]
              currentRequest := (none : Option Nat)
              isProcessing := false } with hst1
          have hSmem : ∀ x, x ∈ settledIds (settle st1 r Settle.rejectedSend) ↔
              x ∈ settledIds st ∨ x = r := by
            intro x
            rw [mem_settledIds_settle]
            have : settledIds st1 = settledIds st := rfl
            rw [this]
          refine ⟨?_, ?_, ?_, ?_, ?_, ?_, ?_, ?_, ?_, ?_⟩
          · rw [settle_isProcessing, settle_currentRequest]
            rfl
          · rw [settle_arrived, settle_popped, settle_requestQueue]
            exact harr2
          · rw [settle_dispatched, settle_popped]
            show (List.map Prod.fst st.dispatched).Sublist (st.popped ++ [r])
            exact h.dispSub.trans (List.sublist_append_left _ _)
          · rw [settle_arrived]; exact h.arrNodup
          · rw [settle_arrived, settle_nextId]; exact h.arrLt
          · intro x hx
            rw [settle_popped]
            rcases (hSmem x).mp hx with hx2 | rfl
            · exact List.mem_append_left _ (h.settledPopped x hx2)
            · exact List.mem_append_right _ (by simp)
          · intro x hx
            rw [settle_requestQueue] at hx
            replace hx : x ∈ rest := hx
            intro hxS
            rcases (hSmem x).mp hxS with hx2 | rfl
            · exact h.queueUnsettled x (by rw [hq]; exact List.mem_cons_of_mem r hx) hx2
            · exact hrRest hx
          · intro x hx
            rw [settle_currentRequest] at hx
            replace hx : (none : Option Nat) = some x := hx
            cases hx
          · intro x hx
            rw [settle_currentRequest] at hx
            replace hx : (none : Option Nat) = some x := hx
            cases hx
          · intro x hx
            rw [settle_dispatched] at hx
            replace hx : x ∈ List.map Prod.fst st.dispatched := hx
            rcases h.dispSettled x hx with hx2 | hx2
            · rw [hcur] at hx2; cases hx2
            · exact Or.inr ((hSmem x).mpr (Or.inl hx2))
      · exact h

/-- Invariant preservation through `processQueue`. -/
theorem inv_processQueue (st : BState) (h : Inv st) : Inv (processQueue st) :=
  inv_processQueueAux st.requestQueue.length st h

/-- Invariant preservation through `_executePython` (enqueue). -/
theorem inv_enqueueRequest (st : BState) (h : Inv st) : Inv (enqueueRequest st) := by
  apply inv_processQueue
  have hfresh : st.nextId ∉ st.arrived := fun hmem =>
    Nat.lt_irrefl st.nextId (h.arrLt st.nextId hmem)
  have hfreshP : st.nextId ∉ st.popped := fun hmem =>
    hfresh (h.arrSplit ▸ List.mem_append_left _ hmem)
  refine ⟨h.procSlot, ?_, h.dispSub, ?_, ?_, h.settledPopped, ?_, h.curDispatched,
    h.curUnsettled, h.dispSettled⟩
  · show st.arrived ++ [st.nextId] = st.popped ++ (st.requestQueue ++ [st.nextId])
    rw [h.arrSplit, List.append_assoc]
  · show (st.arrived ++ [st.nextId]).Nodup
    rw [List.nodup_append]
    exact ⟨h.arrNodup, List.nodup_singleton _,
      fun a ha ha2 => hfresh (by rwa [List.mem_singleton.mp ha2] at ha)⟩
  · intro x hx
    replace hx : x ∈ st.arrived ++ [st.nextId] := hx
    show x < st.nextId + 1
    rcases List.mem_append.mp hx with hx | hx
    · exact Nat.lt_succ_of_lt (h.arrLt x hx)
    · rw [List.mem_singleton.mp hx]
      exact Nat.lt_succ_self _
  · intro x hx
    replace hx : x ∈ st.requestQueue ++ [st.nextId] := hx
    rcases List.mem_append.mp hx with hx | hx
    · exact h.queueUnsettled x hx
    · rw [List.mem_singleton.mp hx]
      intro hS
      exact hfreshP (h.settledPopped _ hS)

/-- Invariant preservation through `_handleProcessDeath`. -/
theorem inv_handleProcessDeath (st : BState) (h : Inv st) :
    Inv (handleProcessDeath st) := by
  unfold handleProcessDeath
  cases hc : st.currentRequest with
  | none =>
    refine ⟨rfl, h.arrSplit, h.dispSub, h.arrNodup, h.arrLt, h.settledPopped,
      h.queueUnsettled, ?_, ?_, ?_⟩
    · intro x hx; exact Option.noConfusion hx
    · intro x hx; exact Option.noConfusion hx
    · intro x hx
      rcases h.dispSettled x hx with hx2 | hx2
      · rw [hc] at hx2; exact Option.noConfusion hx2
      · exact Or.inr hx2
  | some r =>
    apply inv_afterSettleClear st r h hc
    · rfl
    · rfl
    · rfl
    · rfl
    · rfl
    · rfl
    · rfl
    · intro x
      exact mem_settleC st.completions r Settle.rejectedCrash x

/-- Invariant preservation through the `message` handler. -/
theorem inv_onMessage (st : BState) (gen : Nat) (m : WorkerMsg) (h : Inv st) :
    Inv (onMessage st gen m) := by
  unfold onMessage
  split
  · apply inv_processQueue
    exact ⟨h.procSlot, h.arrSplit, h.dispSub, h.arrNodup, h.arrLt, h.settledPopped,
      h.queueUnsettled, h.curDispatched, h.curUnsettled, h.dispSettled⟩
  · cases hc : st.currentRequest with
    | none => exact h
    | some r =>
      apply inv_processQueue
      apply inv_afterSettleClear st r h hc
      · rfl
      · rfl
      · rfl
      · rfl
      · rfl
      · rfl
      · rfl
      · intro x
        exact mem_settleC st.completions r _ x

/-- Invariant preservation through the per-request timeout callback. -/
theorem inv_onTimeout (st : BState) (rid : Nat) (h : Inv st) :
    Inv (onTimeout st rid) := by
  unfold onTimeout
  split
  · rename_i hc
    unfold handleProcessDeath
    rw [settle_currentRequest, hc]
    apply inv_afterSettleClear st rid h hc
    · rfl
    · rfl
    · rfl
    · rfl
    · rfl
    · rfl
    · rfl
    · intro x
      have h1 := mem_settleC (settleC st.completions rid Settle.rejectedTimeout) rid
        Settle.rejectedCrash x
      have h2 := mem_settleC st.completions rid Settle.rejectedTimeout x
      constructor
      · intro hx
        rcases h1.mp hx with hx2 | rfl
        · rcases h2.mp hx2 with hx3 | rfl
          · exact Or.inl hx3
          · exact Or.inr rfl
        · exact Or.inr rfl
      · rintro (hx | rfl)
        · exact h1.mpr (Or.inl (h2.mpr (Or.inl hx)))
        · exact h1.mpr (Or.inr rfl)
  · exact h

/-- Invariant preservation through `_initShell`. -/
theorem inv_initShell (st : BState) (h : Inv st) : Inv (initShell st) :=
  ⟨h.procSlot, h.arrSplit, h.dispSub, h.arrNodup, h.arrLt, h.settledPopped,
    h.queueUnsettled, h.curDispatched, h.curUnsettled, h.dispSettled⟩

/-- Invariant preservation through any event. -/
theorem inv_stepEv (st : BState) (e : BEvent) (h : Inv st) : Inv (stepEv st e) := by
  cases e with
  | enqueue => exact inv_enqueueRequest st h
  | message g m =>
    show Inv (if g ∈ st.spawned then onMessage st g m else st)
    split
    · exact inv_onMessage st g m h
    · exact h
  | timeoutFire rid => exact inv_onTimeout st rid h
  | procClosed g =>
    show Inv (if g ∈ st.spawned then handleProcessDeath st else st)
    split
    · exact inv_handleProcessDeath st h
    · exact h
  | restartFire =>
    show Inv (if st.pendingRestarts > 0 then
      initShell { st with pendingRestarts := st.pendingRestarts - 1 } else st)
    split
    · exact inv_initShell _ ⟨h.procSlot, h.arrSplit, h.dispSub, h.arrNodup, h.arrLt,
        h.settledPopped, h.queueUnsettled, h.curDispatched, h.curUnsettled, h.dispSettled⟩
    · exact h

/-- Invariant preservation along an arbitrary trace. -/
theorem inv_runFrom (st : BState) (h : Inv st) :
    ∀ es : List BEvent, Inv (runFrom st es)
  | [] => h
  | e :: es => by
    have h1 : Inv (stepEv st e) := inv_stepEv st e h
    have h2 := inv_runFrom (stepEv st e) h1 es
    exact h2

/-- The freshly constructed bridge satisfies the invariant. -/
theorem inv_initState : Inv initState := by
  refine ⟨rfl, rfl, ?_, ?_, ?_, ?_, ?_, ?_, ?_, ?_⟩
  · exact List.nil_sublist _
  · exact List.nodup_nil
  · intro r hr; cases hr
  · intro r hr; cases hr
  · intro r hr hr2; cases hr
  · intro r hr; cases hr
  · intro r hr; cases hr
  · intro r hr; cases hr

/-- The invariant holds in every reachable state. -/
theorem inv_run (es : List BEvent) : Inv (run es) :=
  inv_runFrom initState inv_initState es

/-! ## Supporting lemmas for the retry loop and the cache bound -/

/-- When every worker invocation fails, the retry loop runs until the
loop condition turns false: `maxRetries + 1` attempts in total, sleeping
with exponential backoff after each failed attempt that is not the
last. -/
theorem retryLoop_allFail (maxRetries : Nat) (e : String) :
    ∀ (gas attempt : Nat) (lastErr : Option String) (sleeps : List Nat),
      gas = maxRetries + 1 - attempt → attempt ≤ maxRetries →
      retryLoop maxRetries (fun _ => Except.error e) gas attempt lastErr sleeps =
        ⟨maxRetries + 1,
         sleeps ++ (List.range' (attempt + 1) (maxRetries - attempt)).map backoff,
         Except.error (pyExecFailMsg (maxRetries + 1) (some e))⟩
  | 0, attempt, lastErr, sleeps, hg, ha => by exfalso; omega
  | gas + 1, attempt, lastErr, sleeps, hg, ha => by
    unfold retryLoop
    rw [if_pos ha]
    show (if attempt + 1 ≤ maxRetries then _ else _) = _
    by_cases h2 : attempt + 1 ≤ maxRetries
    · rw [if_pos h2]
      rw [retryLoop_allFail maxRetries e gas (attempt + 1) (some e)
        (sleeps ++ [backoff (attempt + 1)]) (by omega) h2]
      have hr : maxRetries - attempt = (maxRetries - (attempt + 1)) + 1 := by omega
      rw [hr, List.range'_succ]
      simp [List.append_assoc]
    · rw [if_neg h2]
      have ha2 : attempt = maxRetries := by omega
      have hg0 : gas = 0 := by omega
      subst hg0
      subst ha2
      unfold retryLoop
      simp

/-- `executeQuery` under an always-failing worker: a valid query passes
validation and the retry loop makes `maxRetries + 1` attempts before a
terminal `PythonExecutionError`. -/
theorem executeQuery_allFail (maxRetries : Nat) (e : String) (s : String)
    (h1 : s.isEmpty = false) (h2 : (jsTrim s).isEmpty = false)
    (h3 : s.length ≤ 2000) :
    executeQuery maxRetries (fun _ => Except.error e) (QueryInput.str s) =
      ⟨maxRetries + 1, (List.range' 1 maxRetries).map backoff,
       Except.error (BridgeError.pythonExecution
         (pyExecFailMsg (maxRetries + 1) (some e)))⟩ := by
  simp only [executeQuery]
  rw [h1, h2]
  simp only [Bool.or_self, Bool.false_eq_true, if_false]
  rw [if_neg (by omega : ¬ (2000 < s.length))]
  rw [retryLoop_allFail maxRetries e (maxRetries + 1) 0 none [] (by omega) (by omega)]
  simp

theorem mapSet_length_le {α : Type} (m : List (String × α)) (k : String) (v : α) :
    (mapSet m k v).length ≤ m.length + 1 := by
  unfold mapSet
  split
  · rw [List.length_map]; omega
  · rw [List.length_append]; simp

theorem mapDelete_cons_self_length {α : Type} (p : String × α) (t : List (String × α)) :
    (mapDelete (p :: t) p.1).length ≤ t.length := by
  unfold mapDelete
  simp only [List.filter_cons, beq_self_eq_true, Bool.not_true, Bool.false_eq_true,
    if_false]
  exact List.length_filter_le _ t

theorem evictIfFull_length_of_full {V : Type} (mem : List (String × MemEntry V))
    (mx : Nat) (hge : mem.length ≥ mx) (h0 : 0 < mx) :
    (evictIfFull mem mx).length + 1 ≤ mem.length := by
  unfold evictIfFull
  rw [if_pos hge]
  cases mem with
  | nil => exfalso; simp at hge; omega
  | cons p t =>
    show (mapDelete (p :: t) p.1).length + 1 ≤ (p :: t).length
    have hd := mapDelete_cons_self_length p t
    simp only [List.length_cons]
    omega

/-- The in-memory fallback cache never exceeds its capacity: inserting
with eviction keeps the size within `mx`. -/
theorem cacheSet_memory_length_le {V : Type} (mem : List (String × MemEntry V))
    (mx : Nat) (key : String) (entry : MemEntry V)
    (hle : mem.length ≤ mx) (h0 : 0 < mx) :
    (mapSet (evictIfFull mem mx) key entry).length ≤ mx := by
  by_cases hge : mem.length ≥ mx
  · have hev := evictIfFull_length_of_full mem mx hge h0
    have hms := mapSet_length_le (evictIfFull mem mx) key entry
    omega
  · have heq : evictIfFull mem mx = mem := by
      unfold evictIfFull
      rw [if_neg hge]
    rw [heq]
    have hms := mapSet_length_le mem key entry
    omega

/-! ## Claim theorems -/

/-- C1.  Bridge mutual exclusion and FIFO order: in every state the
bridge can reach under any sequence of `executeQuery` arrivals, worker
messages, timeouts, process deaths and restarts, at most one dispatched
request is unsettled (in flight) at a time — so a request is sent to the
worker only when no other is in flight — and the sequence of requests
dispatched to the worker is a subsequence of the arrival order in the
bridge's internal request queue (strict FIFO dispatch). -/
theorem C1_bridge_mutex_fifo (es : List BEvent) :
    (inFlight (run es)).length ≤ 1 ∧
    ((run es).dispatched.map Prod.fst).Sublist (run es).arrived := by
  have h := inv_run es
  constructor
  · have hmemF : ∀ x ∈ inFlight (run es), (run es).currentRequest = some x := by
      intro x hx
      unfold inFlight at hx
      rw [List.mem_filter] at hx
      obtain ⟨hxd, hxf⟩ := hx
      rcases h.dispSettled x hxd with h2 | h2
      · exact h2
      · exfalso
        have hany : (run es).completions.any (fun c => c.1 == x) = true := by
          rw [List.any_eq_true]
          unfold settledIds at h2
          rw [List.mem_map] at h2
          obtain ⟨c, hc, hcx⟩ := h2
          refine ⟨c, hc, ?_⟩
          rw [beq_iff_eq]
          exact hcx
        have hxf2 : (!((run es).completions.any (fun c => c.1 == x))) = true := hxf
        rw [hany] at hxf2
        simp at hxf2
    have hnodupD : ((run es).dispatched.map Prod.fst).Nodup := by
      have hpn : (run es).popped.Nodup :=
        (List.nodup_append.mp (h.arrSplit ▸ h.arrNodup)).1
      exact hpn.sublist h.dispSub
    have hndF : (inFlight (run es)).Nodup := by
      unfold inFlight
      exact hnodupD.sublist (List.filter_sublist _)
    rcases hF : inFlight (run es) with _ | ⟨a, rest⟩
    · simp
    · rcases rest with _ | ⟨b, t⟩
      · simp
      · exfalso
        have ha := hmemF a (by rw [hF]; exact List.mem_cons_self _ _)
        have hb := hmemF b
          (by rw [hF]; exact List.mem_cons_of_mem _ (List.mem_cons_self _ _))
        rw [ha] at hb
        injection hb with hab
        rw [hF] at hndF
        rcases List.nodup_cons.mp hndF with ⟨hna, _⟩
        exact hna (by rw [hab]; exact List.mem_cons_self _ _)
  · have hpa : (run es).popped.Sublist (run es).arrived := by
      rw [h.arrSplit]
      exact List.sublist_append_left _ _
    exact h.dispSub.trans hpa

/-- C2.  Evaluation at the failing input for the cache-soundness claim:
processing a job whose conversation history is non-empty performs no
cache read (that half of the claim holds) but, when the worker call
succeeds, the source stores the result in the cache unconditionally —
the write log is non-empty, contradicting the claim that a job with
non-empty context never writes the cache. -/
theorem C2_contextual_job_writes_cache :
    (processJob (fun s => s) ⟨"what is x", "u1", "s1", [⟨"user", "earlier"⟩]⟩
        (fun _ => none) (Except.ok ⟨"ans", ["c1"]⟩)).2.1 = [] ∧
    (processJob (fun s => s) ⟨"what is x", "u1", "s1", [⟨"user", "earlier"⟩]⟩
        (fun _ => none) (Except.ok ⟨"ans", ["c1"]⟩)).2.2 =
      [(generateKey (fun s => s) "what is x", ⟨"ans", ["c1"]⟩)] :=
  ⟨rfl, rfl⟩

/-- C3.  Evaluation at the failing input for the timeout-recovery claim:
after a request (id 0) dispatched to worker generation 1 times out, the
bridge rejects it with the timeout error, removes it from the queue
(never re-dispatching it), and after the restart timer a fresh process
(generation 2) is running — but the `killed` log stays empty: the old
process is never killed, because `_handleProcessDeath` nulls the shell
reference before the scheduled `_initShell` runs, so the `shell.kill()`
guard is skipped. -/
theorem C3_timeout_reject_restart_no_kill :
    (run [BEvent.enqueue, BEvent.message 1 ⟨true, true⟩, BEvent.timeoutFire 0,
          BEvent.restartFire]).completions = [(0, Settle.rejectedTimeout)] ∧
    (run [BEvent.enqueue, BEvent.message 1 ⟨true, true⟩, BEvent.timeoutFire 0,
          BEvent.restartFire]).dispatched = [(0, 1)] ∧
    (run [BEvent.enqueue, BEvent.message 1 ⟨true, true⟩, BEvent.timeoutFire 0,
          BEvent.restartFire]).requestQueue = [] ∧
    (run [BEvent.enqueue, BEvent.message 1 ⟨true, true⟩, BEvent.timeoutFire 0,
          BEvent.restartFire]).shell = some 2 ∧
    (run [BEvent.enqueue, BEvent.message 1 ⟨true, true⟩, BEvent.timeoutFire 0,
          BEvent.restartFire]).spawned = [1, 2] ∧
    (run [BEvent.enqueue, BEvent.message 1 ⟨true, true⟩, BEvent.timeoutFire 0,
          BEvent.restartFire]).killed = [] :=
  ⟨rfl, rfl, rfl, rfl, rfl, rfl⟩

/-- C4.  Counterexample to the claim that `executeQuery` makes exactly
`maxRetries` worker invocation attempts: with `maxRetries = 1` and an
always-failing worker, the loop makes 2 attempts, not 1. -/
theorem C4_retry_count_counterexample :
    ¬ ((executeQuery 1 (fun _ => Except.error "Python execution timeout")
          (QueryInput.str "some query")).attempts = 1) ∧
    (executeQuery 1 (fun _ => Except.error "Python execution timeout")
          (QueryInput.str "some query")).attempts = 2 := by
  constructor
  · decide
  · decide

/-- C4 (amended).  Bounded retry budget: for a valid query and an
always-failing worker, `executeQuery` makes exactly `maxRetries + 1`
worker invocation attempts (the initial attempt plus `maxRetries`
retries), sleeps `min(1000 * 2^k, 5000)` ms before retry `k + 1`, and
then throws a terminal `PythonExecutionError`; it never retries
indefinitely. -/
theorem C4_retry_budget_amended (maxRetries : Nat) (e : String) (s : String)
    (h1 : s.isEmpty = false) (h2 : (jsTrim s).isEmpty = false)
    (h3 : s.length ≤ 2000) :
    (executeQuery maxRetries (fun _ => Except.error e) (QueryInput.str s)).attempts
        = maxRetries + 1 ∧
    (executeQuery maxRetries (fun _ => Except.error e) (QueryInput.str s)).sleeps
        = (List.range maxRetries).map (fun k => min (1000 * 2 ^ k) 5000) ∧
    (executeQuery maxRetries (fun _ => Except.error e) (QueryInput.str s)).result
        = Except.error (BridgeError.pythonExecution
            (pyExecFailMsg (maxRetries + 1) (some e))) := by
  rw [executeQuery_allFail maxRetries e s h1 h2 h3]
  refine ⟨rfl, ?_, rfl⟩
  show (List.range' 1 maxRetries).map backoff = _
  rw [List.range'_eq_map_range, List.map_map]
  apply List.map_congr_left
  intro k hk
  show backoff (1 + k) = min (1000 * 2 ^ k) 5000
  unfold backoff
  have hk2 : 1 + k - 1 = k := by omega
  rw [hk2]

theorem C4_retry_budget_amended_witness :
    (("q" : String).isEmpty = false ∧ (jsTrim "q").isEmpty = false ∧
      ("q" : String).length ≤ 2000) ∧
    (executeQuery 1 (fun _ => Except.error "timeout") (QueryInput.str "q")).attempts
      = 1 + 1 :=
  ⟨⟨by decide, by decide, by decide⟩,
    (C4_retry_budget_amended 1 "timeout" "q" (by decide) (by decide) (by decide)).1⟩

/-- C5.  Validation fail-fast: for every query that is not a string,
empty, whitespace-only, or longer than 2000 characters, `executeQuery`
throws a `ValidationError` with zero worker invocation attempts, for
every possible worker behaviour — the retry loop is never entered and
nothing is sent to the worker. -/
theorem C5_validation_fail_fast (maxRetries : Nat)
    (outcome : Nat → Except String String) (q : QueryInput)
    (h : queryInvalid q = true) :
    (executeQuery maxRetries outcome q).attempts = 0 ∧
    ∃ m, (executeQuery maxRetries outcome q).result =
      Except.error (BridgeError.validation m) := by
  cases q with
  | nonString => exact ⟨rfl, _, rfl⟩
  | str s =>
    simp only [queryInvalid] at h
    simp only [executeQuery]
    by_cases h1 : (s.isEmpty || (jsTrim s).isEmpty) = true
    · rw [if_pos h1]
      exact ⟨rfl, _, rfl⟩
    · have h1f : (s.isEmpty || (jsTrim s).isEmpty) = false :=
        Bool.eq_false_iff.mpr h1
      rw [h1f, Bool.false_or] at h
      have h2 : 2000 < s.length := of_decide_eq_true h
      rw [h1f]
      simp only [Bool.false_eq_true, if_false]
      rw [if_pos h2]
      exact ⟨rfl, _, rfl⟩

theorem C5_validation_fail_fast_witness :
    queryInvalid (QueryInput.str "   ") = true ∧
    (executeQuery 1 (fun _ => Except.ok "ans") (QueryInput.str "   ")).attempts = 0 :=
  ⟨by decide, (C5_validation_fail_fast 1 (fun _ => Except.ok "ans")
      (QueryInput.str "   ") (by decide)).1⟩

/-- C6.  Fingerprint determinism and caller independence: for every
content-hash function and all strings that normalize (lowercase, trim,
collapse whitespace runs) to the same text, `generateKey` yields the
same cache key; the key is a function of the normalized query text only
— no caller identity appears in its signature. -/
theorem C6_fingerprint_deterministic (md5hex : String → String) (a b : String)
    (h : normalizeQuery a = normalizeQuery b) :
    generateKey md5hex a = generateKey md5hex b := by
  unfold generateKey
  rw [h]

theorem C6_fingerprint_deterministic_witness :
    normalizeQuery "  Hello   WORLD " = normalizeQuery "hello world" ∧
    generateKey (fun s => s) "  Hello   WORLD " =
      generateKey (fun s => s) "hello world" :=
  ⟨by decide, C6_fingerprint_deterministic (fun s => s) "  Hello   WORLD "
      "hello world" (by decide)⟩

/-- C7.  Counterexample to the claim that a successful `set` always
additionally writes to the in-process fallback store: with the cache
enabled and Redis available, a successful `set` returns `true` but
leaves the memory fallback empty — the fallback branch is only reached
when Redis is unavailable. -/
theorem C7_no_fallback_write_counterexample :
    (cacheSet (V := Nat) ⟨true, true, [], [], 3600, 100, ⟨0, 0, 0, 0, 0⟩⟩
        "chat:k" 42 none 0 (Except.ok "42") (Except.ok ())).1 = true ∧
    (cacheSet (V := Nat) ⟨true, true, [], [], 3600, 100, ⟨0, 0, 0, 0, 0⟩⟩
        "chat:k" 42 none 0 (Except.ok "42") (Except.ok ())).2.memory = [] :=
  ⟨rfl, rfl⟩

/-- C7 (amended).  Cache set single-store write: while the cache is
enabled, a successful `set` writes to exactly one store — to Redis when
the client is available, leaving the in-process fallback untouched, and
to the in-process fallback only when Redis is unavailable, evicting the
oldest (first-inserted) entry when the fallback is at its capacity
(100 entries), so the fallback never exceeds that capacity. -/
theorem C7_cache_set_amended {V : Type} (st : CacheState V) (key : String)
    (v : V) (ct : Option Nat) (now : Nat) (s : String)
    (hen : st.enabled = true) :
    (st.redisAvailable = true →
      (cacheSet st key v ct now (Except.ok s) (Except.ok ())).1 = true ∧
      (cacheSet st key v ct now (Except.ok s) (Except.ok ())).2.redis =
        mapSet st.redis key (s, effTtl st ct) ∧
      (cacheSet st key v ct now (Except.ok s) (Except.ok ())).2.memory = st.memory) ∧
    (st.redisAvailable = false →
      (cacheSet st key v ct now (Except.ok s) (Except.ok ())).1 = true ∧
      (cacheSet st key v ct now (Except.ok s) (Except.ok ())).2.memory =
        mapSet (evictIfFull st.memory st.memoryCacheMaxSize) key
          ⟨v, now + effTtl st ct * 1000⟩ ∧
      (st.memory.length ≤ st.memoryCacheMaxSize → 0 < st.memoryCacheMaxSize →
        (cacheSet st key v ct now (Except.ok s) (Except.ok ())).2.memory.length ≤
          st.memoryCacheMaxSize)) := by
  constructor
  · intro hra
    simp [cacheSet, bumpSets, hen, hra]
  · intro hra
    refine ⟨?_, ?_, ?_⟩
    · simp [cacheSet, bumpSets, hen, hra]
    · simp [cacheSet, bumpSets, hen, hra]
    · intro hlen h0
      have hb := cacheSet_memory_length_le st.memory st.memoryCacheMaxSize key
        (⟨v, now + effTtl st ct * 1000⟩ : MemEntry V) hlen h0
      simp [cacheSet, bumpSets, hen, hra]
      exact hb

theorem C7_cache_set_amended_witness :
    ((⟨true, false, [], [], 3600, 100, ⟨0, 0, 0, 0, 0⟩⟩ : CacheState Nat).enabled
        = true) ∧
    (cacheSet (V := Nat) ⟨true, false, [], [], 3600, 100, ⟨0, 0, 0, 0, 0⟩⟩
        "chat:k" 42 none 0 (Except.ok "42") (Except.ok ())).2.memory =
      mapSet (evictIfFull ([] : List (String × MemEntry Nat)) 100) "chat:k"
        ⟨42, 3600000⟩ :=
  ⟨rfl, ((C7_cache_set_amended
      (⟨true, false, [], [], 3600, 100, ⟨0, 0, 0, 0, 0⟩⟩ : CacheState Nat)
      "chat:k" 42 none 0 "42" rfl).2 rfl).2.1⟩

/-- C8.  The cache is never a source of failure: a Redis read error, a
`JSON.parse` error on a fetched value, a `JSON.stringify` error, and a
Redis write error are each caught inside `get`/`set` — `get` returns
`none` (a miss) and `set` returns `false` (a no-op); no error
propagates to the caller. -/
theorem C8_cache_errors_contained {V : Type} (st : CacheState V) (key : String)
    (now : Nat) (e e1 : String) (s : String) (v : V) (ct : Option Nat)
    (parse : String → Except String V)
    (hra : st.redisAvailable = true) (hs : s.isEmpty = false) :
    (cacheGet st key now (Except.error e) parse).1 = none ∧
    (cacheGet st key now (Except.ok (some s)) (fun _ => Except.error e1)).1 = none ∧
    (cacheSet st key v ct now (Except.error e) (Except.ok ())).1 = false ∧
    (cacheSet st key v ct now (Except.ok s) (Except.error e1)).1 = false := by
  by_cases hen : st.enabled = false
  · refine ⟨?_, ?_, ?_, ?_⟩ <;> simp [cacheGet, cacheSet, hen]
  · refine ⟨?_, ?_, ?_, ?_⟩ <;> simp [cacheGet, cacheSet, hen, hra, hs]

theorem C8_cache_errors_contained_witness :
    ((⟨true, true, [], [], 3600, 100, ⟨0, 0, 0, 0, 0⟩⟩ : CacheState Nat).redisAvailable
        = true ∧ ("x" : String).isEmpty = false) ∧
    (cacheGet (V := Nat) ⟨true, true, [], [], 3600, 100, ⟨0, 0, 0, 0, 0⟩⟩ "chat:k" 0
        (Except.error "redis down") (fun _ => Except.ok 0)).1 = none :=
  ⟨⟨rfl, rfl⟩, (C8_cache_errors_contained
      (⟨true, true, [], [], 3600, 100, ⟨0, 0, 0, 0, 0⟩⟩ : CacheState Nat)
      "chat:k" 0 "redis down" "boom" "x" 0 none (fun _ => Except.ok 0)
      rfl rfl).1⟩

/-- C9.  Counterexample to the claim that `add` returns before the job
is processed in the in-memory MockQueue mode: when a processor is
registered, the job object returned by `add` is already completed, with
its return value recorded — the processor ran to completion inside
`add`. -/
theorem C9_mock_add_runs_processor_counterexample :
    ((mockAdd ⟨[], 0⟩ (some (fun _ => Except.ok "answer")) "query" none).2.state
        = MockJobState.completed) ∧
    ((mockAdd ⟨[], 0⟩ (some (fun _ => Except.ok "answer")) "query" none).2.returnvalue
        = some "answer") :=
  ⟨rfl, rfl⟩

/-- C9 (amended).  Submit semantics: `addJob`/`add` always succeeds and
returns a job handle after enqueue bookkeeping, but in the in-memory
MockQueue mode a registered processor is run synchronously to
completion inside `add`: the returned handle is already in its terminal
state (completed or failed according to the processor's outcome).  Only
when no processor is registered is the returned job still waiting. -/
theorem C9_mock_add_amended (st : MockQueueState) (p : String → Except String String)
    (data : String) :
    ((mockAdd st (some p) data none).2.state =
      match p data with
      | Except.ok _ => MockJobState.completed
      | Except.error _ => MockJobState.failed) ∧
    ((mockAdd st (some p) data none).2.returnvalue =
      match p data with
      | Except.ok r => some r
      | Except.error _ => none) ∧
    ((mockAdd st none data none).2.state = MockJobState.waiting) := by
  refine ⟨?_, ?_, rfl⟩ <;>
    · cases hp : p data <;> simp [mockAdd, hp]

/-- C10.  Evaluation at the failing input for the stale-response claim:
request 0 is dispatched to worker generation 1 and times out; the shell
is replaced by generation 2 and request 1 is dispatched to it; then a
late response line from the replaced generation 1 arrives, and the
message handler — which never checks which process emitted the line —
resolves request 1 with generation 1's output.  A response from the
old, replaced process is delivered to a later caller's pending
request. -/
theorem C10_stale_response_delivered :
    (run [BEvent.enqueue, BEvent.message 1 ⟨true, true⟩, BEvent.timeoutFire 0,
          BEvent.restartFire, BEvent.enqueue, BEvent.message 2 ⟨true, true⟩,
          BEvent.message 1 ⟨true, false⟩]).dispatched = [(0, 1), (1, 2)] ∧
    (run [BEvent.enqueue, BEvent.message 1 ⟨true, true⟩, BEvent.timeoutFire 0,
          BEvent.restartFire, BEvent.enqueue, BEvent.message 2 ⟨true, true⟩,
          BEvent.message 1 ⟨true, false⟩]).completions =
      [(0, Settle.rejectedTimeout), (1, Settle.resolved 1)] :=
  ⟨rfl, rfl⟩

end FYP
